import Mathlib

/-!
Shallow embedding of the Waymark / Chapter Marker Buddy persistence layer:
`src/content/storage.js`, `src/content/screenshot-db.js`, the cleanup
scheduler `checkAndRunProgressiveCleanup` from the overlay script, and
`CMBUtils.extractVideoId`.

Modelling conventions:
* JavaScript numbers holding epoch-millisecond timestamps are embedded as
  `Int`; byte sizes as `Nat`.
* A JavaScript object used as a string-keyed dictionary, and likewise a
  `Map`, is embedded as an insertion-ordered association list
  `List (String × α)`; `delete obj[k]` is `filter`, assignment is an
  in-place update (or append for a fresh key).
* `chrome.storage.local` is embedded as a record of the keys the code uses
  (`cmb.sessions`, `cmb.lastActiveKey`, `cmb.settings`); the IndexedDB
  `screenshots` object store is a `List Screenshot`.
* `await`-ing backend calls is modelled by explicit state passing.  The one
  place where interleaving is observable (`queuedSave`) gets a small-step
  interpreter whose await points consume an explicit arrival schedule of
  concurrent `queuedSave` calls.
* The `try/catch` the code branches on is made explicit: `checkStorageQuota`
  takes a `readFails` flag selecting its catch branch; the remaining
  operations are embedded on their fault-free paths.
* `CMBUtils.showToast` calls — the user-visible signals — are logged as
  `Event` values.
-/

namespace Waymark

/-- Semantics of the JavaScript `x || d` idiom on a number embedded as `Int`
(the falsy numeric value is `0`). -/
def jsOrNum (x d : Int) : Int := if x = 0 then d else x

/-- Semantics of `x || d` when `x : Option Int` embeds a possibly
`undefined`/`null` numeric field. -/
def jsOrOptNum (x : Option Int) (d : Int) : Int :=
  match x with
  | none => d
  | some v => if v = 0 then d else v

/-- Semantics of `x || d` on strings (the falsy string is the empty one). -/
def jsOrStr (x d : String) : String := if x = "" then d else x

@[simp] theorem jsOrNum_zero_right (x : Int) : jsOrNum x 0 = x := by
  unfold jsOrNum; split <;> simp_all

@[simp] theorem jsOrOptNum_some_zero (v : Int) : jsOrOptNum (some v) 0 = v := by
  unfold jsOrOptNum; split <;> simp_all

/-! ## URL parsing (model of the platform `URL` API) and `extractVideoId` -/

/-- Characters of a string with ASCII capitals lowered, as both the WHATWG
URL parser does to the host and `String.prototype.toLowerCase` does on the
ASCII hostnames the code compares against. -/
def lowerAscii (s : String) : String := String.mk (s.data.map Char.toLower)

/-- Model of `String.prototype.split` with a one-character separator. -/
def splitCharAux (sep : Char) : List Char → List Char → List (List Char)
  | [], acc => [acc.reverse]
  | c :: cs, acc =>
    if c = sep then acc.reverse :: splitCharAux sep cs []
    else splitCharAux sep cs (c :: acc)

/-- Split a character list at every occurrence of `sep` (JavaScript
`split` semantics: n separators yield n+1 pieces, possibly empty). -/
def splitChar (sep : Char) (s : List Char) : List (List Char) :=
  splitCharAux sep s []

/-- Model of `String.prototype.includes` on character lists. -/
def containsSeq (pat : List Char) : List Char → Bool
  | [] => pat.isEmpty
  | c :: cs => pat.isPrefixOf (c :: cs) || containsSeq pat cs

/-- Model of `String.prototype.includes`. -/
def strIncludes (s pat : String) : Bool := containsSeq pat.data s.data

/-- Model of matching the regex `<pat>(\d+)` against a string: the search
finds the first occurrence of the literal `pat` that is followed by at least
one ASCII digit and yields the maximal digit run (the capture group); an
occurrence with no digit after it is passed over, as a regex engine does. -/
def digitsAfter (pat : List Char) : List Char → Option (List Char)
  | [] => none
  | c :: cs =>
    if pat.isPrefixOf (c :: cs) then
      let ds := ((c :: cs).drop pat.length).takeWhile Char.isDigit
      if ds.isEmpty then digitsAfter pat cs else some ds
    else digitsAfter pat cs

/-- Model of `pathname.replace(/[/]/g, '-')`: every slash becomes a dash. -/
def dashSlashes (s : String) : String :=
  String.mk (s.data.map (fun c => if c = '/' then '-' else c))

/-- Result of a successful `new URL(url)` parse, restricted to the fields
the embedded code reads. -/
structure URLParts where
  scheme : String
  hostname : String
  pathname : String
  searchParams : List (String × String)
deriving DecidableEq

/-- Index of the first occurrence of `pat`, if any. -/
def findSeq (pat : List Char) : List Char → Option Nat
  | [] => if pat.isEmpty then some 0 else none
  | c :: cs =>
    if pat.isPrefixOf (c :: cs) then some 0
    else (findSeq pat cs).map (· + 1)

/-- Model of the platform `new URL(url)` constructor, restricted to the
absolute `scheme://host[:port][/path][?query][#frag]` shape that the
embedded call sites rely on: the host is ASCII-lowercased, a missing path
reads as "/", and the query splits into name/value pairs (percent-decoding
is not modelled; no embedded call site depends on it).  A URL without the
`://` separator, or with an empty scheme or host, is rejected — `new URL`
throws `TypeError` there, which the callers catch. -/
def parseURL (url : String) : Option URLParts :=
  match findSeq ("://".data) url.data with
  | none => none
  | some i =>
    let scheme := url.data.take i
    let rest := url.data.drop (i + 3)
    if scheme.isEmpty then none
    else
      let hostPort := rest.takeWhile (fun c => !(c == '/') && !(c == '?') && !(c == '#'))
      if hostPort.isEmpty then none
      else
        let afterHost := rest.drop hostPort.length
        let hostname := (hostPort.takeWhile (fun c => !(c == ':'))).map Char.toLower
        let pathAndQuery := afterHost.takeWhile (fun c => !(c == '#'))
        let path := pathAndQuery.takeWhile (fun c => !(c == '?'))
        let queryStr := pathAndQuery.drop (path.length + 1)
        let pathname := if path.isEmpty then ['/'] else path
        let params := ((splitChar '&' queryStr).filter (fun seg => !seg.isEmpty)).map
          (fun seg =>
            let nm := seg.takeWhile (fun c => !(c == '='))
            (String.mk nm, String.mk (seg.drop (nm.length + 1))))
        some ⟨String.mk scheme, String.mk hostname, String.mk pathname, params⟩

/-- Model of `URLSearchParams.get`: first value bound to the name, `null`
(here `none`) when absent. -/
def spGet (params : List (String × String)) (name : String) : Option String :=
  (params.find? (fun p => p.1 == name)).map (·.2)

/-- Model of `pathname.split('/').pop()` (never `undefined`: splitting a
string yields at least one piece). -/
def pathLast (pathname : String) : String :=
  String.mk ((splitChar '/' pathname.data).getLastD [])

/-- Embedding of `CMBUtils.extractVideoId` (src/unnamed/part_004, 134–166).
`now` stands for the `Date.now()` read in the catch branch, taken when
`new URL(url)` throws. -/
def extractVideoId (url : String) (now : Int) : String :=
  match parseURL url with
  | none => "unknown-" ++ toString now
  | some urlObj =>
    let hostname := lowerAscii urlObj.hostname
    if strIncludes hostname "youtube.com" || strIncludes hostname "youtu.be" then
      let videoId := jsOrStr ((spGet urlObj.searchParams "v").getD "")
                             (pathLast urlObj.pathname)
      jsOrStr videoId "youtube-unknown"
    else if strIncludes hostname "twitch.tv" then
      match digitsAfter ("/videos/".data) urlObj.pathname.data with
      | some ds => "twitch-" ++ String.mk ds
      | none =>
        let vParam := (spGet urlObj.searchParams "v").getD ""
        if vParam ≠ "" then "twitch-" ++ vParam
        else "twitch-" ++ dashSlashes urlObj.pathname
    else if strIncludes hostname "vimeo.com" then
      match digitsAfter ("/".data) urlObj.pathname.data with
      | some ds => "vimeo-" ++ String.mk ds
      | none => "vimeo-" ++ dashSlashes urlObj.pathname
    else
      hostname ++ dashSlashes urlObj.pathname

/-- Embedding of `getSessionKey` (storage.js 193–203).  `now` stands for the
`Date.now()` read in the catch branch; `isoDate` for
`new Date().toISOString().split('T')[0]`, the current UTC calendar date. -/
def getSessionKey (url : String) (now : Int) (isoDate : String) : String :=
  match parseURL url with
  | none => "unknown|" ++ toString now
  | some urlObj =>
    urlObj.hostname ++ "|" ++ extractVideoId url now ++ "|" ++ isoDate

/-! ## Data model -/

/-- A chapter marker inside a session. -/
structure Marker where
  id : String
  timestampSeconds : Int
  title : String
  createdAt : Int
  screenshotId : Option String
deriving DecidableEq

/-- A session record as `beginSession` creates and the other operations
mutate it.  The fresh object carries no `finalized` property (read as falsy),
embedded as `false`. -/
structure Session where
  url : String
  videoTitle : String
  createdAt : Int
  updatedAt : Int
  markers : List Marker
  manualTimer : Option Int
  finalized : Bool
deriving DecidableEq

/-- A screenshot record of the IndexedDB `screenshots` store
(screenshot-db.js 90–97). -/
structure Screenshot where
  id : String
  markerId : String
  sessionKey : String
  dataUrl : String
  createdAt : Int
  size : Int
deriving DecidableEq

/-- The settings record under `cmb.settings` (storage.js 394–421); the
default object of `getSettings` carries no `lastCleanup` property. -/
structure Settings where
  screenshotQuality : Int
  insertIntro : Bool
  defaultExportFormat : String
  hotkeyEnabled : Bool
  lastCleanup : Option Int
deriving DecidableEq

/-- Contents of `chrome.storage.local` under the keys the code uses. -/
structure KVStore where
  sessions : List (String × Session)
  lastActiveKey : Option String
  settings : Option Settings
deriving DecidableEq

/-- The combined state of both stores: the primary KV backend and the
IndexedDB screenshots store. -/
structure StorageState where
  kv : KVStore
  blobs : List Screenshot
deriving DecidableEq

/-- User-visible signals: the `CMBUtils.showToast` calls of storage.js,
plus a marker for the `cleanupOldSessions` call of `queuedSave`'s
quota-error branch. -/
inductive Event where
  | toastStorageFullCleanup
  | toastStoragePct (dataSize : Nat)
  | toastCleanedSessions (n : Nat)
  | toastStorageFullExport
  | toastSaveFailed
  | toastSessionDeleted
  | cleanupInvoked
deriving DecidableEq

/-- Lookup in a string-keyed JavaScript object embedded as an
insertion-ordered association list. -/
def kvGet {α : Type} (l : List (String × α)) (k : String) : Option α :=
  (l.find? (fun e => e.1 == k)).map (·.2)

/-- Model of assignment `obj[k] = v` on a string-keyed object, and equally of
`Map.prototype.set`: an existing key is updated in place, a fresh key is
appended. -/
def mapSet {α : Type} (l : List (String × α)) (k : String) (v : α) :
    List (String × α) :=
  if l.any (fun e => e.1 == k) then
    l.map (fun e => if e.1 == k then (k, v) else e)
  else l ++ [(k, v)]

def oneDayMs : Int := 24 * 60 * 60 * 1000

def thirtyDaysMs : Int := 30 * 24 * 60 * 60 * 1000

def ninetyDaysMs : Int := 90 * 24 * 60 * 60 * 1000

/-! ## BlobStore operations (screenshot-db.js) -/

/-- Embedding of `deleteScreenshot` (screenshot-db.js 135–146) after a
successful `initDB`: `IDBObjectStore.delete` succeeds whether or not a
record with the key exists, and the success handler resolves `true`. -/
def deleteScreenshot (blobs : List Screenshot) (screenshotId : String) :
    Bool × List Screenshot :=
  (true, blobs.filter (fun b => !(b.id == screenshotId)))

/-- Embedding of `deleteSessionScreenshots` (screenshot-db.js 153–177):
walk the `sessionKey` index cursor over the matching records, deleting and
counting each. -/
def deleteSessionScreenshots (blobs : List Screenshot) (sessionKey : String) :
    Nat × List Screenshot :=
  ((blobs.filter (fun b => b.sessionKey == sessionKey)).length,
   blobs.filter (fun b => !(b.sessionKey == sessionKey)))

/-- Embedding of `cleanupOldScreenshots` (screenshot-db.js 212–238): delete
every record whose `createdAt` lies in `IDBKeyRange.upperBound(now - maxAgeMs)`
— the bound is inclusive — counting the deletions. -/
def cleanupOldScreenshots (blobs : List Screenshot) (now maxAgeMs : Int) :
    Nat × List Screenshot :=
  let cutoffTime := now - maxAgeMs
  ((blobs.filter (fun b => decide (b.createdAt ≤ cutoffTime))).length,
   blobs.filter (fun b => !(decide (b.createdAt ≤ cutoffTime))))

/-! ## SessionStore operations (storage.js) -/

/-- The default settings object of `getSettings` (storage.js 397–403). -/
def defaultSettings : Settings :=
  { screenshotQuality := 75, insertIntro := true,
    defaultExportFormat := "youtube", hotkeyEnabled := true,
    lastCleanup := none }

/-- Embedding of `getSettings` (storage.js 394–408). -/
def getSettings (st : StorageState) : Settings :=
  st.kv.settings.getD defaultSettings

/-- Embedding of `saveSettings` (storage.js 415–421). -/
def saveSettings (st : StorageState) (s : Settings) : StorageState :=
  { st with kv := { st.kv with settings := some s } }

/-- Comparator of the `cleanupOldSessions` sort (storage.js 105): the
JavaScript comparator `(b.session.updatedAt || 0) - (a.session.updatedAt || 0)`
lets `a` precede `b` exactly when `a`'s effective `updatedAt` is at least
`b`'s; ties keep insertion order because `Array.prototype.sort` is stable. -/
def moreRecent (a b : String × Session) : Bool :=
  decide (jsOrNum b.2.updatedAt 0 ≤ jsOrNum a.2.updatedAt 0)

/-- Embedding of `cleanupOldSessions` (storage.js 94–128) on its fault-free
path: with at most 5 sessions it does nothing; otherwise it drops everything
past the 5 most recently updated, cascade-deleting each dropped session's
screenshots, and toasts the count. -/
def cleanupOldSessions (st : StorageState) : StorageState × List Event :=
  let sessions := st.kv.sessions
  if sessions.length ≤ 5 then (st, [])
  else
    let dropped := (sessions.mergeSort moreRecent).drop 5
    let delKeys := dropped.map (·.1)
    let blobs2 := delKeys.foldl
      (fun bs k => bs.filter (fun b => !(b.sessionKey == k))) st.blobs
    let sessions2 := sessions.filter (fun e => !(delKeys.contains e.1))
    ({ st with kv := { st.kv with sessions := sessions2 }, blobs := blobs2 },
     [Event.toastCleanedSessions dropped.length])

def quotaLimitBytes : Nat := 5 * 1024 * 1024

/-- Warn threshold of `checkStorageQuota`: `quotaLimit * 0.8` evaluates to
exactly `4194304.0` in IEEE doubles, so the floating comparison in the
source is the exact integer comparison against 4 MiB. -/
def warnThresholdBytes : Nat := 4 * 1024 * 1024

/-- Embedding of `checkStorageQuota` (storage.js 16–36).  `serialSize`
stands for `new Blob([JSON.stringify(storage)]).size` applied to the full
`chrome.storage.local` contents; `readFails` selects the catch branch of
the surrounding try (the backend read threw). -/
def checkStorageQuota (serialSize : KVStore → Nat) (readFails : Bool)
    (st : StorageState) : Bool × StorageState × List Event :=
  if readFails then (true, st, [])
  else
    let dataSize := serialSize st.kv
    if quotaLimitBytes ≤ dataSize then
      let r := cleanupOldSessions st
      (false, r.1, Event.toastStorageFullCleanup :: r.2)
    else if warnThresholdBytes ≤ dataSize then
      (true, st, [Event.toastStoragePct dataSize])
    else
      (true, st, [])

/-- Effective session timestamp `session.updatedAt || session.createdAt || 0`
(storage.js 66). -/
def sessionStamp (s : Session) : Int :=
  jsOrNum s.updatedAt (jsOrNum s.createdAt 0)

/-- Embedding of `progressiveCleanup` (storage.js 41–89) on its fault-free
path, with one clock reading `now` standing for its `Date.now()` calls:
first delete screenshots older than 30 days, then sessions whose effective
timestamp is older than 90 days, then record `lastCleanup := now` in the
settings; the returned count sums both deletions. -/
def progressiveCleanup (st : StorageState) (now : Int) : StorageState × Nat :=
  let shot := cleanupOldScreenshots st.blobs now thirtyDaysMs
  let oldSessionCutoff := now - ninetyDaysMs
  let sessions2 := st.kv.sessions.filter
    (fun e => !(decide (sessionStamp e.2 < oldSessionCutoff)))
  let deletedSessions := st.kv.sessions.length - sessions2.length
  let st2 : StorageState :=
    { kv := { st.kv with sessions := sessions2 }, blobs := shot.2 }
  let settings2 := { getSettings st2 with lastCleanup := some now }
  (saveSettings st2 settings2, shot.1 + deletedSessions)

/-- Embedding of `checkAndRunProgressiveCleanup`
(src/unnamed/part_002, 1408–1426): run `progressiveCleanup` only when the
recorded `lastCleanup` is more than 24 hours old. -/
def checkAndRunProgressiveCleanup (st : StorageState) (now : Int) :
    StorageState :=
  let lastCleanup := jsOrOptNum (getSettings st).lastCleanup 0
  if lastCleanup < now - oneDayMs then (progressiveCleanup st now).1 else st

/-- Embedding of `beginSession` (storage.js 212–248) on its fault-free path.
`pageTitle` stands for `CMBUtils.getVideoTitle()`, `now` for `Date.now()`,
and `isoDate` for the current UTC date consumed by `getSessionKey`.  The
returned session is the record stored under the resolved key. -/
def beginSession (st : StorageState) (url title : String) (key : Option String)
    (pageTitle : String) (now : Int) (isoDate : String) :
    StorageState × Session :=
  let sessionKey := jsOrStr (key.getD "") (getSessionKey url now isoDate)
  let fresh : Session :=
    { url := url, videoTitle := jsOrStr title pageTitle, createdAt := now,
      updatedAt := now, markers := [], manualTimer := none, finalized := false }
  match kvGet st.kv.sessions sessionKey with
  | none =>
    ({ st with kv := { st.kv with
        sessions := mapSet st.kv.sessions sessionKey fresh,
        lastActiveKey := some sessionKey } }, fresh)
  | some existing =>
    let touched : Session := { existing with updatedAt := now, url := url }
    ({ st with kv := { st.kv with
        sessions := mapSet st.kv.sessions sessionKey touched,
        lastActiveKey := some sessionKey } }, touched)

/-- Embedding of `deleteSession` (storage.js 363–388) on its fault-free
path; the middle component is the cascade count that
`deleteSessionScreenshots` reported. -/
def deleteSession (st : StorageState) (key : String) :
    StorageState × Nat × List Event :=
  let cascade := deleteSessionScreenshots st.blobs key
  let sessions2 := st.kv.sessions.filter (fun e => !(e.1 == key))
  ({ st with kv := { st.kv with sessions := sessions2 }, blobs := cascade.2 },
   cascade.1, [Event.toastSessionDeleted])

/-! ## The WriteQueue: `queuedSave` (storage.js 130–186)

The module keeps one `saveQueue : Map` and one `saveInProgress` flag.  A
`queuedSave(key, data)` call always runs `saveQueue.set(key, data)`; the
first caller to find the flag clear runs the drain loop
`for (const [queueKey, queueData] of saveQueue.entries()) ...` and finally
`saveQueue.clear()`.  Scheduling is cooperative, so concurrent calls can
only run while the drain loop is suspended at one of its `await`s: the
quota check, the physical `chrome.storage.local.set`, and the backoff
`setTimeout`.  The interpreter below makes those suspension points
explicit: at the n-th one the environment's scheduled arrivals each run
`saveQueue.set`.  The `Map` iterator is live: it reads an entry's value at
the moment it yields the entry, never revisits a yielded key even if its
value is later overwritten, and does visit keys appended behind the
cursor. -/

/-- Environment of one drain run, over an arbitrary value type `V` (the
code enqueues whole JSON collections): the result of the n-th
`checkStorageQuota` call, whether the n-th `chrome.storage.local.set`
succeeds, whether the n-th set failure is a quota-class error, and the
concurrent `queuedSave` calls arriving at the n-th await point. -/
structure DrainEnv (V : Type) where
  quotaRes : Nat → Bool
  writeRes : Nat → Bool
  quotaErr : Nat → Bool
  arrivals : Nat → List (String × V)

/-- Observable state of one drain run: the `saveQueue` map, the backend
contents under the written keys, the log of physical writes in order, the
toasts surfaced, and counters for quota calls, set calls and await points
passed. -/
structure DrainState (V : Type) where
  queue : List (String × V)
  backend : List (String × V)
  writes : List (String × V)
  events : List Event
  quotaCalls : Nat
  writeCalls : Nat
  awaits : Nat
deriving DecidableEq

/-- Suspension at an `await`: the scheduled concurrent `queuedSave(key, data)`
calls each run `saveQueue.set(key, data)` and, finding `saveInProgress`
true, return. -/
def suspend {V : Type} (env : DrainEnv V) (s : DrainState V) : DrainState V :=
  { s with
    queue := (env.arrivals s.awaits).foldl (fun q kv => mapSet q kv.1 kv.2) s.queue,
    awaits := s.awaits + 1 }

/-- Retry loop for one queue entry (storage.js 146–176), structurally
recursive on the remaining attempt budget `retries - attempt`.  Await the
quota check; on `false` warn on the console and break, dropping the entry.
Otherwise await the physical set; on success record the write.  On a
quota-class failure toast and invoke capacity cleanup (logged as events —
no analysed run reaches this branch) and break; on exhausted retries toast
the failure; otherwise await the linear backoff and retry. -/
def processEntry {V : Type} (env : DrainEnv V) (k : String) (v : V) :
    Nat → DrainState V → DrainState V
  | 0, s => s
  | budget + 1, s =>
    let s1 := suspend env s
    let canSave := env.quotaRes s1.quotaCalls
    let s1 := { s1 with quotaCalls := s1.quotaCalls + 1 }
    if !canSave then
      { s1 with events := s1.events ++ [Event.toastStorageFullCleanup] }
    else
      let s2 := suspend env s1
      let ok := env.writeRes s2.writeCalls
      let failedQuota := env.quotaErr s2.writeCalls
      let s2 := { s2 with writeCalls := s2.writeCalls + 1 }
      if ok then
        { s2 with backend := mapSet s2.backend k v, writes := s2.writes ++ [(k, v)] }
      else if failedQuota then
        { s2 with events := s2.events ++ [Event.toastStorageFullExport, Event.cleanupInvoked] }
      else if budget = 0 then
        { s2 with events := s2.events ++ [Event.toastSaveFailed] }
      else
        processEntry env k v budget (suspend env s2)

/-- The drain loop of `queuedSave` (storage.js 144–184): step the live map
iterator, process each yielded entry, and finish with `saveQueue.clear()`.
`fuel` bounds the iterator steps; every JavaScript run is finite because
only finitely many enqueues arrive. -/
def drainLoop {V : Type} (env : DrainEnv V) (retries : Nat) :
    Nat → Nat → DrainState V → DrainState V
  | 0, _, s => s
  | fuel + 1, idx, s =>
    match s.queue[idx]? with
    | some e => drainLoop env retries fuel (idx + 1) (processEntry env e.1 e.2 retries s)
    | none => { s with queue := [] }

/-- Embedding of a `queuedSave(key, data)` call that finds `saveInProgress`
clear (storage.js 135–186): it enqueues its own entry and runs the drain
loop to completion, with concurrent calls supplied by `env.arrivals`. -/
def queuedSave {V : Type} (env : DrainEnv V) (k : String) (v : V)
    (backend : List (String × V)) (fuel retries : Nat) : DrainState V :=
  drainLoop env retries fuel 0
    { queue := mapSet [] k v, backend := backend, writes := [], events := [],
      quotaCalls := 0, writeCalls := 0, awaits := 0 }

/-! ## Helper lemmas -/

theorem find?_map_update {α : Type} (l : List (String × α)) (k : String) (v : α)
    (h : l.any (fun e => e.1 == k) = true) :
    (l.map (fun e => if e.1 == k then (k, v) else e)).find? (fun e => e.1 == k)
      = some (k, v) := by
  induction l with
  | nil => simp at h
  | cons e es ih =>
    by_cases he : (e.1 == k) = true
    · have hfe : (if (e.1 == k) = true then (k, v) else e) = (k, v) := if_pos he
      rw [List.map_cons, hfe, List.find?_cons]
      simp
    · simp only [List.any_cons, he, Bool.false_or] at h
      have hfe : (if (e.1 == k) = true then (k, v) else e) = e :=
        if_neg (by simpa using he)
      rw [List.map_cons, hfe, List.find?_cons]
      rw [Bool.eq_false_iff.mpr he]
      exact ih h

theorem find?_none_of_any_false {α : Type} (l : List (String × α)) (k : String)
    (h : l.any (fun e => e.1 == k) = false) :
    l.find? (fun e => e.1 == k) = none := by
  rw [List.find?_eq_none]
  intro x hx
  rw [List.any_eq_false] at h
  exact fun hc => h x hx hc

/-- Reading back the key just written by `mapSet` yields the new value. -/
theorem kvGet_mapSet_self {α : Type} (l : List (String × α)) (k : String) (v : α) :
    kvGet (mapSet l k v) k = some v := by
  unfold kvGet mapSet
  by_cases h : l.any (fun e => e.1 == k) = true
  · rw [if_pos h, find?_map_update l k v h]
    rfl
  · rw [if_neg h, List.find?_append,
      find?_none_of_any_false l k (Bool.eq_false_iff.mpr h)]
    simp [List.find?_cons]

/-- Membership in the fold of per-key cascade deletions: a surviving blob
was already there and is owned by none of the deleted keys. -/
theorem mem_foldl_filter_keys {keys : List String} {blobs : List Screenshot}
    {b : Screenshot}
    (hb : b ∈ keys.foldl (fun bs k => bs.filter (fun x => !(x.sessionKey == k))) blobs) :
    b ∈ blobs ∧ ∀ k ∈ keys, b.sessionKey ≠ k := by
  induction keys generalizing blobs with
  | nil => simpa using hb
  | cons k ks ih =>
    simp only [List.foldl_cons] at hb
    obtain ⟨h1, h2⟩ := ih hb
    rw [List.mem_filter] at h1
    refine ⟨h1.1, ?_⟩
    intro k2 hk2
    rw [List.mem_cons] at hk2
    rcases hk2 with rfl | hk2
    · simpa using h1.2
    · exact h2 _ hk2

/-- An empty storage state, used by the concrete witnesses below. -/
def emptyState : StorageState :=
  { kv := { sessions := [], lastActiveKey := none, settings := none }, blobs := [] }

/-! ## Claims -/

/-- C10: for every id, once the blob database opens, `deleteScreenshot`
resolves `true` — also when no blob with that id exists (second conjunct:
deleting from a store holding no such blob returns `true` and leaves the
store unchanged) — so the boolean result never distinguishes a deleted blob
from an absent one. -/
theorem deleteScreenshot_resolves_true (blobs : List Screenshot)
    (screenshotId : String) :
    (deleteScreenshot blobs screenshotId).1 = true ∧
    deleteScreenshot (blobs.filter (fun b => !(b.id == screenshotId))) screenshotId
      = (true, blobs.filter (fun b => !(b.id == screenshotId))) := by
  refine ⟨rfl, ?_⟩
  simp [deleteScreenshot, List.filter_filter]

/-- C8: `deleteSession` is idempotent and deleting an absent key is a no-op:
a second call on an already-deleted key returns the same state (sessions
collection unchanged) and its blob cascade reports zero deletions. -/
theorem deleteSession_idempotent (st : StorageState) (key : String) :
    deleteSession (deleteSession st key).1 key
      = ((deleteSession st key).1, 0, [Event.toastSessionDeleted]) := by
  have hs : (st.kv.sessions.filter (fun e => !(e.1 == key))).filter
        (fun e => !(e.1 == key))
      = st.kv.sessions.filter (fun e => !(e.1 == key)) := by
    rw [List.filter_filter]
    exact List.filter_congr (fun a _ => Bool.and_self _)
  have hb : (st.blobs.filter (fun b => !(b.sessionKey == key))).filter
        (fun b => !(b.sessionKey == key))
      = st.blobs.filter (fun b => !(b.sessionKey == key)) := by
    rw [List.filter_filter]
    exact List.filter_congr (fun a _ => Bool.and_self _)
  have hz : ((st.blobs.filter (fun b => !(b.sessionKey == key))).filter
        (fun b => b.sessionKey == key)).length = 0 := by
    rw [List.filter_filter, List.length_eq_zero, List.filter_eq_nil_iff]
    intro b _
    cases h : b.sessionKey == key <;> simp [h]
  simp only [deleteSession, deleteSessionScreenshots, hs, hb, hz]

/-- C9: quota enforcement is fail-open — whenever reading the primary KV
backend contents throws, `checkStorageQuota` takes its catch branch and
returns `true` with no size measurement, no eviction and no warning, so the
pending write proceeds. -/
theorem checkStorageQuota_fail_open (serialSize : KVStore → Nat)
    (st : StorageState) :
    checkStorageQuota serialSize true st = (true, st, []) := rfl

/-- C5: `checkStorageQuota` measures the serialized size of the whole
primary KV backend; at or above the 5 MiB limit it runs capacity eviction
synchronously and returns `false`; at or above 80% of the limit but below
it, it returns `true`, surfaces a warning and evicts nothing; below the
warn threshold it returns `true` silently. -/
theorem checkStorageQuota_thresholds (serialSize : KVStore → Nat)
    (st : StorageState) :
    (quotaLimitBytes ≤ serialSize st.kv →
      checkStorageQuota serialSize false st
        = (false, (cleanupOldSessions st).1,
           Event.toastStorageFullCleanup :: (cleanupOldSessions st).2)) ∧
    (warnThresholdBytes ≤ serialSize st.kv → serialSize st.kv < quotaLimitBytes →
      checkStorageQuota serialSize false st
        = (true, st, [Event.toastStoragePct (serialSize st.kv)])) ∧
    (serialSize st.kv < warnThresholdBytes →
      checkStorageQuota serialSize false st = (true, st, [])) := by
  unfold checkStorageQuota
  refine ⟨fun h => ?_, fun h1 h2 => ?_, fun h => ?_⟩
  · simp [h]
  · simp [h1, Nat.not_le.mpr h2]
  · have h2 : serialSize st.kv < quotaLimitBytes := by
      have : warnThresholdBytes ≤ quotaLimitBytes := by decide
      omega
    simp [Nat.not_le.mpr h, Nat.not_le.mpr h2]

/-- Witness for C5 at a concrete oversized store. -/
theorem checkStorageQuota_thresholds_witness :
    quotaLimitBytes ≤ (fun _ : KVStore => 6000000) emptyState.kv ∧
    checkStorageQuota (fun _ => 6000000) false emptyState
      = (false, (cleanupOldSessions emptyState).1,
         Event.toastStorageFullCleanup :: (cleanupOldSessions emptyState).2) :=
  ⟨by decide,
   (checkStorageQuota_thresholds (fun _ => 6000000) emptyState).1 (by decide)⟩

/-- C3: a second age-eviction invocation within 24 hours of a completed
sweep (which recorded `lastCleanup`) detects it already ran and is a no-op:
the state — both stores and the settings — is returned unchanged. -/
theorem checkAndRunProgressiveCleanup_noop_within_day (st : StorageState)
    (t1 now2 : Int) (h : now2 ≤ t1 + oneDayMs) :
    checkAndRunProgressiveCleanup (progressiveCleanup st t1).1 now2
      = (progressiveCleanup st t1).1 := by
  have hset : (getSettings (progressiveCleanup st t1).1).lastCleanup = some t1 := by
    simp [progressiveCleanup, saveSettings, getSettings]
  unfold checkAndRunProgressiveCleanup
  rw [hset, jsOrOptNum_some_zero, if_neg (by omega)]

/-- Witness for C3 at a concrete state and clock. -/
theorem checkAndRunProgressiveCleanup_noop_within_day_witness :
    ((10 : Int) ≤ 5 + oneDayMs) ∧
    checkAndRunProgressiveCleanup (progressiveCleanup emptyState 5).1 10
      = (progressiveCleanup emptyState 5).1 :=
  ⟨by decide, checkAndRunProgressiveCleanup_noop_within_day emptyState 5 10 (by decide)⟩

/-- C4: `beginSession` on the resolved key creates a record with empty
markers when none exists, and otherwise stores a record that keeps the
existing `markers` and `createdAt` (and title) while refreshing `updatedAt`
and `url` — existing markers are never dropped. -/
theorem beginSession_create_or_touch (st : StorageState) (url title : String)
    (key : Option String) (pageTitle : String) (now : Int) (isoDate : String) :
    (kvGet st.kv.sessions (jsOrStr (key.getD "") (getSessionKey url now isoDate))
        = none →
      kvGet (beginSession st url title key pageTitle now isoDate).1.kv.sessions
          (jsOrStr (key.getD "") (getSessionKey url now isoDate))
        = some { url := url, videoTitle := jsOrStr title pageTitle,
                 createdAt := now, updatedAt := now, markers := [],
                 manualTimer := none, finalized := false }) ∧
    (∀ old,
      kvGet st.kv.sessions (jsOrStr (key.getD "") (getSessionKey url now isoDate))
          = some old →
      kvGet (beginSession st url title key pageTitle now isoDate).1.kv.sessions
          (jsOrStr (key.getD "") (getSessionKey url now isoDate))
        = some { old with updatedAt := now, url := url }) := by
  constructor
  · intro h
    simp only [beginSession, h]
    exact kvGet_mapSet_self _ _ _
  · intro old h
    simp only [beginSession, h]
    exact kvGet_mapSet_self _ _ _

/-- An existing session with one marker, used by concrete witnesses. -/
def c4Session : Session :=
  { url := "https://example.com/old", videoTitle := "t", createdAt := 100,
    updatedAt := 100,
    markers := [{ id := "m1", timestampSeconds := 3, title := "intro",
                  createdAt := 100, screenshotId := none }],
    manualTimer := none, finalized := false }

/-- A one-session storage state, used by concrete witnesses. -/
def oneSessionState : StorageState :=
  { kv := { sessions := [("k1", c4Session)], lastActiveKey := none,
            settings := none },
    blobs := [] }

/-- Witness for C4: touching the existing session under key "k1" keeps its
marker list and creation time while refreshing `updatedAt` and `url`. -/
theorem beginSession_create_or_touch_witness :
    kvGet oneSessionState.kv.sessions
        (jsOrStr ((some "k1").getD "")
          (getSessionKey "https://example.com/new" 200 "d")) = some c4Session ∧
    kvGet (beginSession oneSessionState "https://example.com/new" "t2"
          (some "k1") "pt" 200 "d").1.kv.sessions
        (jsOrStr ((some "k1").getD "")
          (getSessionKey "https://example.com/new" 200 "d"))
      = some { c4Session with updatedAt := 200, url := "https://example.com/new" } :=
  ⟨by decide,
   (beginSession_create_or_touch oneSessionState "https://example.com/new" "t2"
      (some "k1") "pt" 200 "d").2 c4Session (by decide)⟩

/-- C6: the age sweep deletes aged blobs strictly before aged sessions —
the post-sweep blob store is exactly the 30-day cleanup of the pre-sweep
blob store, untouched by the session deletions — and after a fault-free
sweep no remaining blob's `createdAt` is older than 30 days and no
remaining session's `updatedAt` is older than 90 days (for records with a
set, hence nonzero, `updatedAt`, as every record the code writes has). -/
theorem progressiveCleanup_order_and_invariant (st : StorageState) (now : Int)
    (h : ∀ e ∈ st.kv.sessions, e.2.updatedAt ≠ 0) :
    (progressiveCleanup st now).1.blobs
        = (cleanupOldScreenshots st.blobs now thirtyDaysMs).2 ∧
    (∀ b ∈ (progressiveCleanup st now).1.blobs,
        ¬(b.createdAt < now - thirtyDaysMs)) ∧
    (∀ e ∈ (progressiveCleanup st now).1.kv.sessions,
        ¬(e.2.updatedAt < now - ninetyDaysMs)) := by
  refine ⟨rfl, ?_, ?_⟩
  · intro b hb
    have hm : b ∈ st.blobs ∧
        (!(decide (b.createdAt ≤ now - thirtyDaysMs))) = true := by
      simpa [progressiveCleanup, cleanupOldScreenshots, saveSettings,
        List.mem_filter] using hb
    have h2 := hm.2
    simp only [Bool.not_eq_true', decide_eq_false_iff_not] at h2
    omega
  · intro e he
    have hm : e ∈ st.kv.sessions ∧
        (!(decide (sessionStamp e.2 < now - ninetyDaysMs))) = true := by
      simpa [progressiveCleanup, saveSettings, List.mem_filter] using he
    have hstamp : sessionStamp e.2 = e.2.updatedAt := by
      unfold sessionStamp jsOrNum
      rw [if_neg (h e hm.1)]
    have h2 := hm.2
    simp only [Bool.not_eq_true', decide_eq_false_iff_not] at h2
    rw [hstamp] at h2
    exact h2

/-- Witness for C6 at a concrete one-session state. -/
theorem progressiveCleanup_order_and_invariant_witness :
    (∀ e ∈ oneSessionState.kv.sessions, e.2.updatedAt ≠ 0) ∧
    ((progressiveCleanup oneSessionState 200).1.blobs
        = (cleanupOldScreenshots oneSessionState.blobs 200 thirtyDaysMs).2 ∧
     (∀ b ∈ (progressiveCleanup oneSessionState 200).1.blobs,
        ¬(b.createdAt < 200 - thirtyDaysMs)) ∧
     (∀ e ∈ (progressiveCleanup oneSessionState 200).1.kv.sessions,
        ¬(e.2.updatedAt < 200 - ninetyDaysMs))) :=
  ⟨by decide, progressiveCleanup_order_and_invariant oneSessionState 200 (by decide)⟩

/-- Clock independence of `extractVideoId` on a successful parse: the only
`Date.now()` read sits in the catch branch. -/
theorem extractVideoId_clock_free {url : String} {u : URLParts} (n m : Int)
    (hp : parseURL url = some u) :
    extractVideoId url n = extractVideoId url m := by
  unfold extractVideoId
  rw [hp]

/-- Left-cancellation of string concatenation. -/
theorem string_append_cancel_left {s t1 t2 : String} (h : s ++ t1 = s ++ t2) :
    t1 = t2 := by
  apply String.ext
  have h2 := congrArg String.data h
  rw [String.data_append, String.data_append] at h2
  exact List.append_cancel_left h2

/-- C7 counterexample: on a URL that the URL parser rejects, `getSessionKey`
returns `unknown|` followed by the epoch-millisecond clock, so two calls on
the same UTC day (here 1000 ms apart on 2026-10-11) return different keys —
the claim's for-every-url determinism fails. -/
theorem getSessionKey_not_deterministic_on_invalid_url :
    ¬(getSessionKey "notaurl" 1000 "2026-10-11"
        = getSessionKey "notaurl" 2000 "2026-10-11") := by decide

/-- C7 amended: for every URL the URL parser accepts, the derived key is
stable within one UTC day (independent of the within-day clock), has the
`hostname|videoId|isoDate` shape, and changes at day rollover; for a URL
the parser rejects, the key is `unknown|` followed by the current
epoch-millisecond clock. -/
theorem getSessionKey_deterministic_for_valid_url (url : String)
    (u : URLParts) (n m : Int) (d d2 : String) (hp : parseURL url = some u) :
    getSessionKey url n d = getSessionKey url m d ∧
    getSessionKey url n d
      = u.hostname ++ "|" ++ extractVideoId url n ++ "|" ++ d ∧
    (d ≠ d2 → getSessionKey url n d ≠ getSessionKey url m d2) ∧
    (∀ url2, parseURL url2 = none →
        getSessionKey url2 n d = "unknown|" ++ toString n) := by
  have hvid : extractVideoId url n = extractVideoId url m :=
    extractVideoId_clock_free n m hp
  have hform : ∀ (t : Int) (dd : String),
      getSessionKey url t dd
        = u.hostname ++ "|" ++ extractVideoId url t ++ "|" ++ dd := by
    intro t dd
    unfold getSessionKey
    rw [hp]
  refine ⟨?_, hform n d, ?_, ?_⟩
  · rw [hform n d, hform m d, hvid]
  · intro hne heq
    rw [hform n d, hform m d2, ← hvid] at heq
    exact hne (string_append_cancel_left heq)
  · intro url2 h2
    unfold getSessionKey
    rw [h2]

/-- A concrete parseable URL, used by the C7 witness. -/
def ytUrl : String := "https://www.youtube.com/watch?v=dQw4w9WgXcQ"

/-- Parse of `ytUrl`, used by the C7 witness. -/
def ytParts : URLParts :=
  { scheme := "https", hostname := "www.youtube.com", pathname := "/watch",
    searchParams := [("v", "dQw4w9WgXcQ")] }

/-- Witness for the amended C7 at a concrete YouTube URL and two same-day
clock readings. -/
theorem getSessionKey_deterministic_for_valid_url_witness :
    parseURL ytUrl = some ytParts ∧
    (getSessionKey ytUrl 1000 "2026-10-11" = getSessionKey ytUrl 2000 "2026-10-11" ∧
     getSessionKey ytUrl 1000 "2026-10-11"
       = ytParts.hostname ++ "|" ++ extractVideoId ytUrl 1000 ++ "|" ++ "2026-10-11" ∧
     ("2026-10-11" ≠ "2026-10-12" →
       getSessionKey ytUrl 1000 "2026-10-11" ≠ getSessionKey ytUrl 2000 "2026-10-12") ∧
     (∀ url2, parseURL url2 = none →
       getSessionKey url2 1000 "2026-10-11" = "unknown|" ++ toString (1000 : Int))) :=
  ⟨by decide,
   getSessionKey_deterministic_for_valid_url ytUrl ytParts 1000 2000
     "2026-10-11" "2026-10-12" (by decide)⟩

/-- Core of the capacity-eviction argument, stated over the session entry
list and blob list that `cleanupOldSessions` manipulates: with unique keys
and more than 5 entries, exactly 5 survive, survivors come from the
original list, every survivor's `updatedAt` is at least every evicted
entry's, surviving blobs come from the original blobs, and no surviving
blob is owned by a deleted key. -/
theorem evictCore (entries : List (String × Session)) (blobs : List Screenshot)
    (hnd : (entries.map Prod.fst).Nodup) (hgt : 5 < entries.length)
    (sorted dropped : List (String × Session)) (delKeys : List String)
    (survivors : List (String × Session)) (blobs2 : List Screenshot)
    (hsorted : sorted = entries.mergeSort moreRecent)
    (hdropped : dropped = sorted.drop 5)
    (hdelKeys : delKeys = dropped.map Prod.fst)
    (hsurv : survivors = entries.filter (fun e => !(delKeys.contains e.1)))
    (hblobs2 : blobs2 = delKeys.foldl
      (fun bs k => bs.filter (fun b => !(b.sessionKey == k))) blobs) :
    survivors.length = 5 ∧
    (∀ e ∈ survivors, e ∈ entries) ∧
    (∀ e ∈ survivors, ∀ d ∈ entries, d ∉ survivors →
        d.2.updatedAt ≤ e.2.updatedAt) ∧
    (∀ b ∈ blobs2, b ∈ blobs) ∧
    (∀ b ∈ blobs2, ∀ d ∈ entries, d ∉ survivors → b.sessionKey ≠ d.1) := by
  have htrans : ∀ a b c : String × Session,
      moreRecent a b = true → moreRecent b c = true → moreRecent a c = true := by
    intro a b c hab hbc
    simp only [moreRecent, decide_eq_true_eq] at *
    omega
  have htot : ∀ a b : String × Session,
      (moreRecent a b || moreRecent b a) = true := by
    intro a b
    simp only [moreRecent, Bool.or_eq_true, decide_eq_true_eq]
    omega
  have hperm : sorted.Perm entries :=
    hsorted ▸ List.mergeSort_perm entries moreRecent
  have hpw : sorted.Pairwise (fun a b => moreRecent a b = true) :=
    hsorted ▸ List.sorted_mergeSort htrans htot entries
  have hsplit : sorted.take 5 ++ dropped = sorted :=
    hdropped ▸ List.take_append_drop 5 sorted
  have hndS : (sorted.map Prod.fst).Nodup :=
    ((hperm.map Prod.fst).nodup_iff).mpr hnd
  have hdisj : ((sorted.take 5).map Prod.fst).Disjoint delKeys := by
    rw [hdelKeys]
    rw [← hsplit, List.map_append, List.nodup_append] at hndS
    exact hndS.2.2
  have hA : ∀ e ∈ sorted.take 5, e.1 ∉ delKeys := by
    intro e he hin
    exact hdisj (List.mem_map_of_mem Prod.fst he) hin
  have hB : ∀ d ∈ dropped, d.1 ∈ delKeys := by
    intro d hd
    rw [hdelKeys]
    exact List.mem_map_of_mem Prod.fst hd
  have hsurv_iff : ∀ e, e ∈ survivors ↔ e ∈ entries ∧ e.1 ∉ delKeys := by
    intro e
    rw [hsurv, List.mem_filter]
    constructor
    · rintro ⟨h1, h2⟩
      refine ⟨h1, fun hin => ?_⟩
      have hc : delKeys.contains e.1 = true := List.elem_iff.mpr hin
      rw [hc] at h2
      simp at h2
    · rintro ⟨h1, h2⟩
      refine ⟨h1, ?_⟩
      rw [Bool.not_eq_true', Bool.eq_false_iff]
      exact fun hc => h2 (List.elem_iff.mp hc)
  have hmem_sorted : ∀ e, e ∈ entries → e ∈ sorted :=
    fun e he => hperm.mem_iff.mpr he
  have hkept : ∀ e ∈ entries, e.1 ∉ delKeys → e ∈ sorted.take 5 := by
    intro e he hnin
    have hm := hmem_sorted e he
    rw [← hsplit, List.mem_append] at hm
    rcases hm with hm | hm
    · exact hm
    · exact absurd (hB e hm) hnin
  have hdropmem : ∀ d ∈ entries, d.1 ∈ delKeys → d ∈ dropped := by
    intro d hd hin
    have hm := hmem_sorted d hd
    rw [← hsplit, List.mem_append] at hm
    rcases hm with hm | hm
    · exact absurd hin (hA d hm)
    · exact hm
  have hlen : survivors.length = 5 := by
    have hperm2 : (sorted.filter (fun e => !(delKeys.contains e.1))).Perm survivors := by
      rw [hsurv]
      exact List.Perm.filter _ hperm
    have h1 : (sorted.take 5).filter (fun e => !(delKeys.contains e.1))
        = sorted.take 5 := by
      rw [List.filter_eq_self]
      intro a ha
      rw [Bool.not_eq_true', Bool.eq_false_iff]
      exact fun hc => (hA a ha) (List.elem_iff.mp hc)
    have h2 : dropped.filter (fun e => !(delKeys.contains e.1)) = [] := by
      rw [List.filter_eq_nil_iff]
      intro a ha hc
      rw [Bool.not_eq_true'] at hc
      have hc2 : delKeys.contains a.1 = true := List.elem_iff.mpr (hB a ha)
      rw [hc2] at hc
      cases hc
    have hfil : sorted.filter (fun e => !(delKeys.contains e.1)) = sorted.take 5 := by
      calc sorted.filter (fun e => !(delKeys.contains e.1))
          = (sorted.take 5 ++ dropped).filter (fun e => !(delKeys.contains e.1)) := by
            rw [hsplit]
        _ = (sorted.take 5).filter (fun e => !(delKeys.contains e.1))
              ++ dropped.filter (fun e => !(delKeys.contains e.1)) :=
            List.filter_append _ _
        _ = sorted.take 5 := by rw [h1, h2, List.append_nil]
    have h5 : (sorted.take 5).length = 5 := by
      rw [List.length_take]
      exact Nat.min_eq_left (by have := hperm.length_eq; omega)
    rw [← hperm2.length_eq, hfil, h5]
  have hdelmem : ∀ d ∈ entries, d ∉ survivors → d.1 ∈ delKeys := by
    intro d hd hdn
    by_contra hno
    exact hdn ((hsurv_iff d).mpr ⟨hd, hno⟩)
  have hord : ∀ e ∈ survivors, ∀ d ∈ entries, d ∉ survivors →
      d.2.updatedAt ≤ e.2.updatedAt := by
    intro e he d hd hdn
    have he2 := (hsurv_iff e).mp he
    have heK : e ∈ sorted.take 5 := hkept e he2.1 he2.2
    have hdD : d ∈ dropped := hdropmem d hd (hdelmem d hd hdn)
    have hpw2 : (sorted.take 5 ++ dropped).Pairwise
        (fun a b => moreRecent a b = true) := by
      rw [hsplit]
      exact hpw
    have hmr := (List.pairwise_append.mp hpw2).2.2 e heK d hdD
    simp only [moreRecent, decide_eq_true_eq, jsOrNum_zero_right] at hmr
    exact hmr
  have hblobmem : ∀ b ∈ blobs2, b ∈ blobs ∧ ∀ k ∈ delKeys, b.sessionKey ≠ k := by
    intro b hb
    rw [hblobs2] at hb
    exact mem_foldl_filter_keys hb
  refine ⟨hlen, fun e he => ((hsurv_iff e).mp he).1, hord,
    fun b hb => (hblobmem b hb).1, ?_⟩
  intro b hb d hd hdn
  exact (hblobmem b hb).2 d.1 (hdelmem d hd hdn)

/-- C2: after capacity eviction on a collection of more than 5 sessions
(keys unique, as JavaScript object keys are), exactly 5 sessions survive,
every survivor is one of the original sessions whose `updatedAt` is at
least that of every evicted session — the survivors are the 5 most
recently updated — the surviving blobs are among the original ones, and no
surviving blob's `ownerSessionKey` refers to an evicted session; with 5 or
fewer sessions the eviction does nothing at all. -/
theorem cleanupOldSessions_capacity_eviction (st : StorageState)
    (hnd : (st.kv.sessions.map Prod.fst).Nodup) :
    (st.kv.sessions.length ≤ 5 → cleanupOldSessions st = (st, [])) ∧
    (5 < st.kv.sessions.length →
      (cleanupOldSessions st).1.kv.sessions.length = 5 ∧
      (∀ e ∈ (cleanupOldSessions st).1.kv.sessions, e ∈ st.kv.sessions) ∧
      (∀ e ∈ (cleanupOldSessions st).1.kv.sessions,
        ∀ d ∈ st.kv.sessions, d ∉ (cleanupOldSessions st).1.kv.sessions →
          d.2.updatedAt ≤ e.2.updatedAt) ∧
      (∀ b ∈ (cleanupOldSessions st).1.blobs, b ∈ st.blobs) ∧
      (∀ b ∈ (cleanupOldSessions st).1.blobs,
        ∀ d ∈ st.kv.sessions, d ∉ (cleanupOldSessions st).1.kv.sessions →
          b.sessionKey ≠ d.1)) := by
  constructor
  · intro hle
    simp only [cleanupOldSessions]
    rw [if_pos hle]
  · intro hgt
    have hnotle : ¬ st.kv.sessions.length ≤ 5 := by omega
    have hS : (cleanupOldSessions st).1.kv.sessions
        = st.kv.sessions.filter
            (fun e => !((((st.kv.sessions.mergeSort moreRecent).drop 5).map
              (fun x => x.1)).contains e.1)) := by
      simp only [cleanupOldSessions]
      rw [if_neg hnotle]
    have hBb : (cleanupOldSessions st).1.blobs
        = (((st.kv.sessions.mergeSort moreRecent).drop 5).map (fun x => x.1)).foldl
            (fun bs k => bs.filter (fun b => !(b.sessionKey == k))) st.blobs := by
      simp only [cleanupOldSessions]
      rw [if_neg hnotle]
    rw [hS, hBb]
    exact evictCore st.kv.sessions st.blobs hnd hgt _ _ _ _ _ rfl rfl rfl rfl rfl

/-- A session record with only its key-relevant fields varied, for the C2
witness. -/
def mkSess (u : Int) : Session :=
  { url := "u", videoTitle := "t", createdAt := 1, updatedAt := u,
    markers := [], manualTimer := none, finalized := false }

/-- Six sessions with distinct keys and update times, for the C2 witness. -/
def sixSessions : List (String × Session) :=
  [("ka", mkSess 10), ("kb", mkSess 60), ("kc", mkSess 30),
   ("kd", mkSess 40), ("ke", mkSess 50), ("kf", mkSess 20)]

/-- One blob owned by the stalest of the six sessions, for the C2 witness. -/
def sixBlobs : List Screenshot :=
  [{ id := "s1", markerId := "m1", sessionKey := "ka",
     dataUrl := "img", createdAt := 1, size := 3 }]

/-- Six-session storage state of the C2 witness. -/
def sixState : StorageState :=
  { kv := { sessions := sixSessions, lastActiveKey := none, settings := none },
    blobs := sixBlobs }

/-- Witness for C2 at a concrete six-session store. -/
theorem cleanupOldSessions_capacity_eviction_witness :
    ((sixState.kv.sessions.map Prod.fst).Nodup ∧
      5 < sixState.kv.sessions.length) ∧
    ((cleanupOldSessions sixState).1.kv.sessions.length = 5 ∧
     (∀ e ∈ (cleanupOldSessions sixState).1.kv.sessions,
        e ∈ sixState.kv.sessions) ∧
     (∀ e ∈ (cleanupOldSessions sixState).1.kv.sessions,
        ∀ d ∈ sixState.kv.sessions,
          d ∉ (cleanupOldSessions sixState).1.kv.sessions →
            d.2.updatedAt ≤ e.2.updatedAt) ∧
     (∀ b ∈ (cleanupOldSessions sixState).1.blobs, b ∈ sixState.blobs) ∧
     (∀ b ∈ (cleanupOldSessions sixState).1.blobs,
        ∀ d ∈ sixState.kv.sessions,
          d ∉ (cleanupOldSessions sixState).1.kv.sessions →
            b.sessionKey ≠ d.1)) :=
  ⟨⟨by decide, by decide⟩,
   (cleanupOldSessions_capacity_eviction sixState (by decide)).2 (by decide)⟩

/-- Drain environment of the C1 run: storage small (every quota check
passes), every physical set succeeds, and one concurrent
`queuedSave("cmb.sessions", 2)` arrives at the first await point — while
the drain loop is suspended in the quota check for the entry it has
already read. -/
def rapidSaveEnv : DrainEnv Nat :=
  { quotaRes := fun _ => true, writeRes := fun _ => true,
    quotaErr := fun _ => false,
    arrivals := fun t => if t = 0 then [("cmb.sessions", 2)] else [] }

/-- C1: two rapid `queuedSave` calls on the same key — the second arriving
while the drain loop awaits the quota check for the first — end with
exactly one physical write whose content is the FIRST call's value, the
backend holding that first value, no failure or capacity toast, and the
queue cleared: the second call's value 2, which `saveQueue.set` had
recorded as the latest pending value for the key (last conjunct), is
dropped by `saveQueue.clear()` without any signal.  This refutes the
claimed guarantee that the write content equals the last call's argument
or an explicit failure is surfaced. -/
theorem queuedSave_drops_rapid_second_save :
    (queuedSave rapidSaveEnv "cmb.sessions" 1 [] 10 3).writes
        = [("cmb.sessions", 1)] ∧
    kvGet (queuedSave rapidSaveEnv "cmb.sessions" 1 [] 10 3).backend
        "cmb.sessions" = some 1 ∧
    (queuedSave rapidSaveEnv "cmb.sessions" 1 [] 10 3).events = [] ∧
    (queuedSave rapidSaveEnv "cmb.sessions" 1 [] 10 3).queue = [] ∧
    (suspend rapidSaveEnv
      { queue := mapSet [] "cmb.sessions" 1, backend := [], writes := [],
        events := [], quotaCalls := 0, writeCalls := 0, awaits := 0 }).queue
      = [("cmb.sessions", 2)] := by decide

end Waymark
